import Mathlib

/-!
Verification of the card-game core: card model, deck container, CSV deck
parser (`FileReader::readDeckFromCSV`) and round logger (`FileWriter`).

Sources embedded:
  * `src/include/Card.h` — comparison and equality of cards via `value()`.
  * `src/src/FileReader.cpp` — the CSV parser.
  * `src/src/FileWriter.cpp` — output file construction and round writing.
The concrete card variants (`PlayingCard`, `FaceCard`, `JokerCard`) and the
`Deck` container are declared in headers that are not part of the available
sources; their behaviour is modelled from the specification where noted.
-/

/-- Modelled from the spec: the closed set of card variants
{StandardCard (called PlayingCard in the source), FaceCard, JokerCard};
their headers are not among the available sources. Each carries only the
data it needs: suit+rank, or a label. -/
inductive Card where
  | standard (suit : String) (rank : Nat)
  | face (suit : String) (rank : Nat)
  | joker (label : String)
deriving DecidableEq, Repr

/-- Modelled from the spec: `value()` per variant — standard/face cards
return their rank; the Joker returns a fixed sentinel greater than 13
(the spec suggests 14) so Jokers always win comparisons. -/
def Card.value : Card → Nat
  | .standard _ r => r
  | .face _ r => r
  | .joker _ => 14

/-- From `src/include/Card.h`: `operator<` returns
`this->value() < other.value()`. -/
def Card.ltb (a b : Card) : Bool := a.value < b.value

/-- From `src/include/Card.h`: `operator==` returns
`this->value() == other.value()`. -/
def Card.eqb (a b : Card) : Bool := a.value == b.value

/-- Modelled from the spec: a Deck is an ordered sequence of owned cards;
index 0 is the top (drawn first), the last index is the bottom. `Deck.h`
is not among the available sources. -/
abbrev Deck := List Card

/-- `Deck::addCard` as used by `FileReader.cpp`: append one card at the
bottom (the end of the sequence). -/
def Deck.addCard (d : Deck) (c : Card) : Deck := d ++ [c]

/-- `Deck::sizer` as used by `FileReader.cpp`: the number of cards. -/
def Deck.sizer (d : Deck) : Nat := d.length

/-- Modelled from the spec: the error kind raised by drawing from an
empty deck. -/
inductive DeckError where
  | emptyDeck
deriving DecidableEq, Repr

/-- Modelled from the spec: `drawFromTop` removes and returns ownership of
the first element; it fails with `EmptyDeck` when the size is 0.
`Deck.h` is not among the available sources. -/
def Deck.drawFromTop : Deck → Except DeckError (Card × Deck)
  | [] => .error .emptyDeck
  | c :: rest => .ok (c, rest)

/-! ### `std::stoi` semantics

`FileReader.cpp` parses the rank with `int rank = std::stoi(value);`.
`std::stoi` (via `strtol`) discards leading whitespace, accepts an
optional `+`/`-` sign, converts the longest run of leading base-10
digits, ignores any trailing characters, throws `invalid_argument` when
no digits can be converted and `out_of_range` when the result does not
fit in `int`. Both exceptions are mapped to `none` here, since the
parser's `catch (...)` treats them identically. -/

/-- The whitespace characters recognised by `isspace` in the default
locale: space, tab, newline, vertical tab, form feed, carriage return. -/
def isSpaceChar (c : Char) : Bool :=
  c = ' ' || c = '\t' || c = '\n' || c = '\x0b' || c = '\x0c' || c = '\r'

/-- Drop leading whitespace, as `strtol` does before conversion. -/
def dropSpaces : List Char → List Char
  | [] => []
  | c :: cs => if isSpaceChar c then dropSpaces cs else c :: cs

/-- Split off the longest run of leading decimal digits. -/
def spanDigits : List Char → List Char × List Char
  | [] => ([], [])
  | c :: cs =>
    if c.isDigit then
      let p := spanDigits cs
      (c :: p.1, p.2)
    else ([], c :: cs)

/-- The numeric value of a digit run, most significant digit first. -/
def digitsToNat (ds : List Char) : Nat :=
  ds.foldl (fun a c => a * 10 + (c.toNat - 48)) 0

/-- Read an optional leading `+`/`-` sign, as `strtol` does after the
whitespace. -/
def stripSign (cs : List Char) : Int × List Char :=
  match cs with
  | [] => (1, [])
  | c :: r =>
    if c = '+' then (1, r)
    else if c = '-' then (-1, r)
    else (1, c :: r)

/-- `std::stoi` on the character list of the field: skip leading
whitespace, read an optional sign, convert leading digits, ignore the
rest; `none` models the `invalid_argument` (no digits) and
`out_of_range` (outside 32-bit `int`) exceptions. -/
def stoiChars (s : List Char) : Option Int :=
  let p := stripSign (dropSpaces s)
  let ds := (spanDigits p.2).1
  if ds = [] then none
  else
    let n : Int := p.1 * (digitsToNat ds : Int)
    if n < -2147483648 ∨ 2147483647 < n then none else some n

/-! ### The CSV parser, `FileReader::readDeckFromCSV` -/

/-- The message of every exception thrown from inside the parse loop
(`catch (...)` rethrows with this same message). -/
def malformedMsg : String := "Malformed CSV input"

/-- The message thrown post-loop when the deck has size 0 (the source's
wording, typo included). -/
def emptySourceMsg : String := "Empty of invalid CSV deck"

/-- The message thrown when the input file cannot be opened. -/
def openFailMsg (path : String) : String :=
  "Failed to open input deck: " ++ path

/-- `line.find(',')` followed by the two `substr` calls: split the line at
the first comma into (left field, right field); `none` when there is no
comma (`commaPos == npos`). -/
def splitFirstComma : List Char → Option (List Char × List Char)
  | [] => none
  | c :: cs =>
    if c = ',' then some ([], cs)
    else
      match splitFirstComma cs with
      | none => none
      | some p => some (c :: p.1, p.2)

/-- One iteration of the parse loop of `FileReader::readDeckFromCSV`:
skip an empty line; require a comma and two non-empty fields; an exact
`suit == "Joker"` match appends a `JokerCard` with the right field as its
label; otherwise `std::stoi` the right field, require the rank in
`[1,13]`, and append a `FaceCard` for rank ≥ 11 or a `PlayingCard`
(standard card) otherwise. Every throw inside the loop surfaces as
`malformedMsg` through the `catch (...)` handler. -/
def processLine (d : Deck) (line : List Char) : Except String Deck :=
  if line = [] then .ok d
  else
    match splitFirstComma line with
    | none => .error malformedMsg
    | some (suit, value) =>
      if suit = [] ∨ value = [] then .error malformedMsg
      else if suit = "Joker".toList then
        .ok (d.addCard (.joker (String.mk value)))
      else
        match stoiChars value with
        | none => .error malformedMsg
        | some rank =>
          if rank < 1 ∨ 13 < rank then .error malformedMsg
          else if 11 ≤ rank then .ok (d.addCard (.face (String.mk suit) rank.toNat))
          else .ok (d.addCard (.standard (String.mk suit) rank.toNat))

/-- The `while (std::getline(file, line))` loop: process the lines in
order, aborting at the first failure. -/
def processLines (d : Deck) : List (List Char) → Except String Deck
  | [] => .ok d
  | l :: ls =>
    match processLine d l with
    | .error e => .error e
    | .ok d2 => processLines d2 ls

/-- `FileReader::readDeckFromCSV`: fail with the open-failure message when
the stream does not open; otherwise run the parse loop over the source's
lines starting from an empty deck, and post-loop fail with
`emptySourceMsg` when the deck's size is 0. `openOk` models
`file.is_open()` and `lines` the sequence of lines `std::getline`
yields. -/
def readDeckFromCSV (openOk : Bool) (path : String)
    (lines : List (List Char)) : Except String Deck :=
  if !openOk then .error (openFailMsg path)
  else
    match processLines [] lines with
    | .error e => .error e
    | .ok d => if d.sizer = 0 then .error emptySourceMsg else .ok d

/-! ### `FileWriter` -/

/-- Modelled from the spec: `render()` per variant — suit+rank text for
standard/face cards, `"Joker:<label>"` for the Joker; the `print`
overrides are not among the available sources. Only used to model the
round line's deck fields. -/
def Card.render : Card → String
  | .standard s r => s ++ toString r
  | .face s r => s ++ toString r
  | .joker l => "Joker:" ++ l

/-- Modelled from the spec: a deck renders as the ordered concatenation
of its cards' renderings. -/
def Deck.render (d : Deck) : String := String.join (d.map Card.render)

/-- The state of the output file: the sequence of lines written so far. -/
structure FileWriterState where
  contents : List String
deriving DecidableEq, Repr

/-- The header line written by the `FileWriter` constructor. -/
def headerLine : String :=
  "Round,PlayerA_Count,PlayerB_Count,PlayerA_Cards,PlayerB_Cards"

/-- `FileWriter::FileWriter`: open the path with `std::ios::out |
std::ios::trunc` (discarding `oldContents`, the file's previous lines),
fail when the file does not open, and write the header line. `openOk`
models `file_.is_open()`. -/
def FileWriter.construct (openOk : Bool) (path : String)
    (oldContents : List String) : Except String FileWriterState :=
  if !openOk then .error ("Failed to open output CSV: " ++ path)
  else .ok ⟨[headerLine]⟩

/-- `FileWriter::writeRound`: append one round line
`round,sizeA,sizeB,"renderA","renderB"`. -/
def FileWriter.writeRound (st : FileWriterState) (round : Int)
    (a b : Deck) : FileWriterState :=
  ⟨st.contents ++
    [toString round ++ "," ++ toString a.sizer ++ "," ++ toString b.sizer ++
      ",\x22" ++ a.render ++ "\x22,\x22" ++ b.render ++ "\x22"]⟩

/-! ### Helper lemmas -/

theorem splitFirstComma_ne_nil {l : List Char} {p : List Char × List Char}
    (h : splitFirstComma l = some p) : l ≠ [] := by
  intro he; subst he; simp [splitFirstComma] at h

theorem digit_not_special {c : Char} (h : c.isDigit = true) :
    isSpaceChar c = false ∧ c ≠ ',' ∧ c ≠ '+' ∧ c ≠ '-' := by
  simp only [Char.isDigit] at h
  refine ⟨?_, ?_, ?_, ?_⟩
  · simp only [isSpaceChar]
    by_contra hs
    simp only [Bool.not_eq_false, Bool.or_eq_true, decide_eq_true_eq] at hs
    rcases hs with ((((h1 | h1) | h1) | h1) | h1) | h1 <;>
      (subst h1; revert h; decide)
  all_goals intro he; subst he; revert h; decide

theorem space_not_comma {c : Char} (h : isSpaceChar c = true) : c ≠ ',' := by
  simp only [isSpaceChar, Bool.or_eq_true, decide_eq_true_eq] at h
  rcases h with ((((h1 | h1) | h1) | h1) | h1) | h1 <;> (subst h1; decide)

theorem allSpace_splitFirstComma {l : List Char}
    (h : ∀ c ∈ l, isSpaceChar c = true) : splitFirstComma l = none := by
  induction l with
  | nil => rfl
  | cons c cs ih =>
    have hc := space_not_comma (h c (by simp))
    have hcs := ih (fun x hx => h x (by simp [hx]))
    simp [splitFirstComma, hc, hcs]

theorem processLine_error_msg {d : Deck} {l : List Char} {e : String}
    (h : processLine d l = .error e) : e = malformedMsg := by
  unfold processLine at h
  split at h
  · simp at h
  · split at h
    · exact (Except.error.injEq _ _ ▸ h).symm
    · split at h
      · exact (Except.error.injEq _ _ ▸ h).symm
      · split at h
        · simp at h
        · split at h
          · exact (Except.error.injEq _ _ ▸ h).symm
          · split at h
            · exact (Except.error.injEq _ _ ▸ h).symm
            · split at h <;> simp at h

theorem processLines_error_msg {d : Deck} {ls : List (List Char)} {e : String}
    (h : processLines d ls = .error e) : e = malformedMsg := by
  induction ls generalizing d with
  | nil => simp [processLines] at h
  | cons l ls ih =>
    unfold processLines at h
    split at h
    · rename_i e2 he
      cases h
      exact processLine_error_msg he
    · exact ih h

/-! ### Claim theorems -/

/-- C5: for all cards a, b, c: `a < b` iff `a.value() < b.value()` and
`a == b` iff `a.value() == b.value()`; exactly one of `a<b`, `b<a`,
`a==b` holds, and `a<b` with `b<c` implies `a<c` — a strict total order
on values, suit never a tie-break. -/
theorem c5_value_order_is_strict_total (a b c : Card) :
    (Card.ltb a b = true ↔ a.value < b.value) ∧
    (Card.eqb a b = true ↔ a.value = b.value) ∧
    ((Card.ltb a b = true ∧ Card.ltb b a = false ∧ Card.eqb a b = false) ∨
     (Card.ltb b a = true ∧ Card.ltb a b = false ∧ Card.eqb a b = false) ∨
     (Card.eqb a b = true ∧ Card.ltb a b = false ∧ Card.ltb b a = false)) ∧
    (Card.ltb a b = true → Card.ltb b c = true → Card.ltb a c = true) := by
  refine ⟨by simp [Card.ltb], by simp [Card.eqb], ?_, ?_⟩
  · simp only [Card.ltb, Card.eqb, decide_eq_true_eq, decide_eq_false_iff_not,
      beq_iff_eq, beq_eq_false_iff_ne, ne_eq, not_lt]
    omega
  · simp only [Card.ltb, decide_eq_true_eq]
    omega

/-- Witness for C5 at concrete cards: a standard 2 sorts below a face 12,
a face 12 below a Joker, and transitivity yields standard 2 below the
Joker. -/
theorem c5_value_order_is_strict_total_witness :
    Card.ltb (.standard "Hearts" 2) (.joker "Red") = true :=
  (c5_value_order_is_strict_total (.standard "Hearts" 2) (.face "Clubs" 12)
    (.joker "Red")).2.2.2 (by decide) (by decide)

/-- C6: the line `joker,5` (lowercase j) parses as a `StandardCard` with
suit `"joker"` and rank 5, not a `JokerCard`: the comparison against the
token `"Joker"` is an exact, case-sensitive string match. -/
theorem c6_lowercase_joker_is_a_suit :
    processLine [] ("joker,5".toList) = .ok [Card.standard "joker" 5] ∧
    "joker" ≠ "Joker" := by
  exact ⟨rfl, by decide⟩

/-- C10: the `FileWriter` constructor truncates the output file (whatever
lines it held before are erased), fails when the path cannot be opened,
and writes exactly the header line before any round is written — the file
holds exactly the header even if `writeRound` is never called. -/
theorem c10_filewriter_truncates_then_header (path : String)
    (oldContents : List String) :
    FileWriter.construct true path oldContents =
      .ok ⟨[headerLine]⟩ ∧
    FileWriter.construct false path oldContents =
      .error ("Failed to open output CSV: " ++ path) := by
  exact ⟨rfl, rfl⟩

/-- C8: `drawFromTop` on a deck of size 0 fails with `EmptyDeck`, and a
failure happens only on the empty deck (so no state is disturbed); on a
non-empty deck it removes and returns the first (top) element. -/
theorem c8_drawFromTop_contract (d : Deck) :
    (d.sizer = 0 → d.drawFromTop = .error DeckError.emptyDeck) ∧
    (∀ e, d.drawFromTop = .error e → d = [] ∧ e = DeckError.emptyDeck) ∧
    (∀ c rest, d = c :: rest → d.drawFromTop = .ok (c, rest)) := by
  cases d with
  | nil => simp [Deck.drawFromTop, Deck.sizer]
  | cons c rest => simp [Deck.drawFromTop, Deck.sizer]

/-- Witness for C8: the freshly constructed empty deck draws to the
`EmptyDeck` failure. -/
theorem c8_drawFromTop_contract_witness :
    (Deck.drawFromTop []) = .error DeckError.emptyDeck :=
  (c8_drawFromTop_contract []).1 rfl

/-- C1: for a line with a comma and non-empty fields on both sides: left
field exactly `"Joker"` appends a `JokerCard` labelled with the right
field, unconditionally; otherwise the right field is read by `std::stoi`
and a rank in [11,13] appends a `FaceCard(suit, rank)` while a rank in
[1,10] appends a `StandardCard(suit, rank)`; in each case the card goes
to the deck bottom and the loop continues with the next line, so cards
are appended in line order. -/
theorem c1_line_dispatch (d : Deck) (line suit value : List Char)
    (hsplit : splitFirstComma line = some (suit, value))
    (hs : suit ≠ []) (hv : value ≠ []) :
    (suit = "Joker".toList →
      processLine d line = .ok (d ++ [Card.joker (String.mk value)])) ∧
    (∀ r : Int, suit ≠ "Joker".toList → stoiChars value = some r →
      11 ≤ r → r ≤ 13 →
      processLine d line = .ok (d ++ [Card.face (String.mk suit) r.toNat])) ∧
    (∀ r : Int, suit ≠ "Joker".toList → stoiChars value = some r →
      1 ≤ r → r ≤ 10 →
      processLine d line = .ok (d ++ [Card.standard (String.mk suit) r.toNat])) ∧
    (∀ (d2 : Deck) (ls : List (List Char)), processLine d line = .ok d2 →
      processLines d (line :: ls) = processLines d2 ls) := by
  have hne : line ≠ [] := splitFirstComma_ne_nil hsplit
  refine ⟨?_, ?_, ?_, ?_⟩
  · intro hj
    simp [processLine, hne, hsplit, hs, hv, hj, Deck.addCard]
  · intro r hj hr h11 h13
    have hj2 : suit ≠ (['J', 'o', 'k', 'e', 'r'] : List Char) :=
      fun h => hj (h.trans (by decide))
    have hcond : ¬ (r < 1 ∨ 13 < r) := by omega
    simp [processLine, hne, hsplit, hs, hv, hj2, hr, hcond, h11, Deck.addCard]
  · intro r hj hr h1 h10
    have hj2 : suit ≠ (['J', 'o', 'k', 'e', 'r'] : List Char) :=
      fun h => hj (h.trans (by decide))
    have hcond : ¬ (r < 1 ∨ 13 < r) := by omega
    have hge : ¬ (11 ≤ r) := by omega
    simp [processLine, hne, hsplit, hs, hv, hj2, hr, hcond, hge, Deck.addCard]
  · intro d2 ls hok
    simp [processLines, hok]

/-- Witness for C1 at concrete lines: `Joker,Red` appends a JokerCard,
`Clubs,12` a FaceCard and `Hearts,2` a StandardCard. -/
theorem c1_line_dispatch_witness :
    processLine [] ("Joker,Red".toList) = .ok [Card.joker "Red"] ∧
    processLine [] ("Clubs,12".toList) = .ok [Card.face "Clubs" 12] ∧
    processLine [] ("Hearts,2".toList) = .ok [Card.standard "Hearts" 2] := by
  refine ⟨?_, ?_, ?_⟩
  · exact (c1_line_dispatch [] ("Joker,Red".toList) ("Joker".toList)
      ("Red".toList) rfl (by decide) (by decide)).1 rfl
  · exact (c1_line_dispatch [] ("Clubs,12".toList) ("Clubs".toList)
      ("12".toList) rfl (by decide) (by decide)).2.1 12 (by decide) rfl
      (by decide) (by decide)
  · exact (c1_line_dispatch [] ("Hearts,2".toList) ("Hearts".toList)
      ("2".toList) rfl (by decide) (by decide)).2.2.1 2 (by decide) rfl
      (by decide) (by decide)

/-- A line that fails the parser's structural or domain validation: it is
non-empty (so it is not skipped) and has no comma, or an empty field
after the split at the first comma, or (for a non-Joker left field) a
right field `std::stoi` cannot convert, or a converted rank outside
[1,13]. -/
def badLine (l : List Char) : Prop :=
  l ≠ [] ∧
  (splitFirstComma l = none ∨
    ∃ s v, splitFirstComma l = some (s, v) ∧
      (s = [] ∨ v = [] ∨
        (s ≠ "Joker".toList ∧
          (stoiChars v = none ∨
            ∃ r : Int, stoiChars v = some r ∧ (r < 1 ∨ 13 < r)))))

theorem badLine_error {l : List Char} (h : badLine l) (d : Deck) :
    processLine d l = .error malformedMsg := by
  obtain ⟨hne, hcase⟩ := h
  rcases hcase with hnone | ⟨s, v, hsv, hrest⟩
  · simp [processLine, hne, hnone]
  · by_cases hev : s = [] ∨ v = []
    · simp [processLine, hne, hsv, hev]
    · rcases hrest with hs | hv | ⟨hj, hstoi⟩
      · exact absurd (Or.inl hs) hev
      · exact absurd (Or.inr hv) hev
      · have hj2 : s ≠ (['J', 'o', 'k', 'e', 'r'] : List Char) :=
          fun h2 => hj (h2.trans (by decide))
        rcases hstoi with hnone2 | ⟨r, hr, hout⟩
        · simp [processLine, hne, hsv, hev, hj2, hnone2]
        · simp [processLine, hne, hsv, hev, hj2, hr, hout]

theorem processLine_ok_shape {d : Deck} {l : List Char} {d2 : Deck}
    (hne : l ≠ []) (h : processLine d l = .ok d2) : ∃ c, d2 = d ++ [c] := by
  unfold processLine at h
  rw [if_neg hne] at h
  split at h
  · cases h
  · split at h
    · cases h
    · split at h
      · injection h with h2
        exact ⟨_, h2.symm⟩
      · split at h
        · cases h
        · split at h
          · cases h
          · split at h
            · injection h with h2
              exact ⟨_, h2.symm⟩
            · injection h with h2
              exact ⟨_, h2.symm⟩

/-- C2: one bad line rejects the whole source — when any line of the
source fails structural or domain validation (no comma, empty field,
a right field `std::stoi` cannot convert, or a rank outside [1,13]),
`readDeckFromCSV` fails with the single MalformedInput error and yields
no deck: no per-line skipping, no partial deck. -/
theorem c2_one_bad_line_rejects_source (path : String)
    (lines : List (List Char)) (h : ∃ l ∈ lines, badLine l) :
    readDeckFromCSV true path lines = .error malformedMsg := by
  have key : ∀ (ls : List (List Char)) (d : Deck), (∃ l ∈ ls, badLine l) →
      processLines d ls = .error malformedMsg := by
    intro ls
    induction ls with
    | nil =>
      rintro d ⟨l, hl, _⟩
      simp at hl
    | cons l ls ih =>
      rintro d ⟨x, hx, hbad⟩
      rcases List.mem_cons.mp hx with rfl | hx2
      · simp [processLines, badLine_error hbad d]
      · unfold processLines
        cases hpl : processLine d l with
        | error e =>
          rw [processLine_error_msg hpl]
        | ok d2 =>
          exact ih d2 ⟨x, hx2, hbad⟩
  simp [readDeckFromCSV, key lines [] h]

/-- Witness for C2: in a source whose middle line `Spades` has no comma,
the whole parse fails with the MalformedInput message even though the
other lines are valid. -/
theorem c2_one_bad_line_rejects_source_witness :
    readDeckFromCSV true "deck.csv"
      ["Hearts,7".toList, "Spades".toList, "Clubs,12".toList] =
      .error malformedMsg :=
  c2_one_bad_line_rejects_source "deck.csv" _
    ⟨"Spades".toList, by simp, ⟨by decide, Or.inl (by decide)⟩⟩

theorem spanDigits_append_digits {ds : List Char}
    (hds : ∀ x ∈ ds, x.isDigit = true) {c : Char} (hc : c.isDigit = false)
    (rest : List Char) :
    spanDigits (ds ++ c :: rest) = (ds, c :: rest) := by
  induction ds with
  | nil => simp [spanDigits, hc]
  | cons d0 ds ih =>
    have h0 : d0.isDigit = true := hds d0 (by simp)
    have hds2 : ∀ x ∈ ds, x.isDigit = true := fun x hx => hds x (by simp [hx])
    simp [spanDigits, h0, ih hds2]

theorem spanDigits_all {ds : List Char}
    (hds : ∀ x ∈ ds, x.isDigit = true) : spanDigits ds = (ds, []) := by
  induction ds with
  | nil => rfl
  | cons d0 ds ih =>
    have h0 : d0.isDigit = true := hds d0 (by simp)
    have hds2 : ∀ x ∈ ds, x.isDigit = true := fun x hx => hds x (by simp [hx])
    simp [spanDigits, h0, ih hds2]

theorem stoiChars_append_garbage {ds : List Char} (hne : ds ≠ [])
    (hds : ∀ x ∈ ds, x.isDigit = true) {c : Char} (hc : c.isDigit = false)
    (rest : List Char) :
    stoiChars (ds ++ c :: rest) = stoiChars ds := by
  obtain ⟨d0, ds2, rfl⟩ := List.exists_cons_of_ne_nil hne
  have h0 : d0.isDigit = true := hds d0 (by simp)
  obtain ⟨hsp, hcm, hpl, hmn⟩ := digit_not_special h0
  have hdrop1 : dropSpaces ((d0 :: ds2) ++ c :: rest) = (d0 :: ds2) ++ c :: rest := by
    simp [dropSpaces, hsp]
  have hdrop2 : dropSpaces (d0 :: ds2) = d0 :: ds2 := by
    simp [dropSpaces, hsp]
  have hsign1 : stripSign ((d0 :: ds2) ++ c :: rest) = (1, (d0 :: ds2) ++ c :: rest) := by
    simp [stripSign, hpl, hmn]
  have hsign2 : stripSign (d0 :: ds2) = (1, d0 :: ds2) := by
    simp [stripSign, hpl, hmn]
  simp only [stoiChars, hdrop1, hdrop2, hsign1, hsign2,
    spanDigits_append_digits hds hc rest, spanDigits_all hds]

/-- C3 counterexample: with a non-`Joker` left field, a right field of
`" 5"` or `"5 "` IS treated as `"5"` — all three lines below parse to the
same `StandardCard("Hearts", 5)`, because `std::stoi` skips leading
whitespace and ignores trailing characters. This refutes the claim that
no implicit trimming is applied to the rank field. -/
theorem c3_counterexample_stoi_is_tolerant :
    processLine [] ("Hearts, 5".toList) = .ok [Card.standard "Hearts" 5] ∧
    processLine [] ("Hearts,5 ".toList) = .ok [Card.standard "Hearts" 5] ∧
    processLine [] ("Hearts,5".toList) = .ok [Card.standard "Hearts" 5] := by
  exact ⟨rfl, rfl, rfl⟩

/-- C3 (amended): with a non-`Joker` left field the right field is
accepted only when `std::stoi` can convert a leading base-10 integer from
it; a right field with no convertible leading integer fails with
MalformedInput. The suit field is never trimmed, but `std::stoi` skips
leading whitespace and ignores characters after the digit run, so a
right field of `" 5"` or `"5 "` is treated as `"5"`. -/
theorem c3_amended_stoi_semantics :
    (∀ (d : Deck) (line suit value : List Char),
      splitFirstComma line = some (suit, value) → suit ≠ [] → value ≠ [] →
      suit ≠ "Joker".toList → stoiChars value = none →
      processLine d line = .error malformedMsg) ∧
    (∀ v : List Char, stoiChars (' ' :: v) = stoiChars v) ∧
    (∀ (ds : List Char) (c : Char) (rest : List Char), ds ≠ [] →
      (∀ x ∈ ds, x.isDigit = true) → c.isDigit = false →
      stoiChars (ds ++ c :: rest) = stoiChars ds) := by
  refine ⟨?_, ?_, ?_⟩
  · intro d line suit value hsplit hs hv hj hstoi
    have hne : line ≠ [] := splitFirstComma_ne_nil hsplit
    have hj2 : suit ≠ (['J', 'o', 'k', 'e', 'r'] : List Char) :=
      fun h2 => hj (h2.trans (by decide))
    simp [processLine, hne, hsplit, hs, hv, hj2, hstoi]
  · intro v
    simp [stoiChars, dropSpaces, isSpaceChar]
  · exact fun ds c rest hne hds hc => stoiChars_append_garbage hne hds hc rest

/-- Witness for the amended C3: the right field `abc` has no leading
integer and the line fails with the MalformedInput message, while the
whitespace-tolerance parts apply to `" 5"` versus `"5"` and `"5 "`
versus `"5"`. -/
theorem c3_amended_stoi_semantics_witness :
    processLine [] ("Hearts,abc".toList) = .error malformedMsg ∧
    stoiChars (" 5".toList) = stoiChars ("5".toList) ∧
    stoiChars ("5 ".toList) = stoiChars ("5".toList) := by
  refine ⟨?_, ?_, ?_⟩
  · exact c3_amended_stoi_semantics.1 [] ("Hearts,abc".toList)
      ("Hearts".toList) ("abc".toList) rfl (by decide) (by decide)
      (by decide) rfl
  · exact c3_amended_stoi_semantics.2.1 ("5".toList)
  · exact c3_amended_stoi_semantics.2.2 ("5".toList) ' ' []
      (by decide) (by decide) (by decide)

/-- C4: when the source opens and every line is consumed but the deck is
empty, the parse fails with the EmptySource message, distinct from the
MalformedInput message; the size check runs only after the loop, so a
non-empty final deck is returned unchanged. -/
theorem c4_empty_source_post_loop (path : String) (lines : List (List Char))
    (d : Deck) (h : processLines [] lines = .ok d) :
    (d.sizer = 0 → readDeckFromCSV true path lines = .error emptySourceMsg) ∧
    (d.sizer ≠ 0 → readDeckFromCSV true path lines = .ok d) ∧
    emptySourceMsg ≠ malformedMsg := by
  refine ⟨?_, ?_, by decide⟩
  · intro hz
    simp [readDeckFromCSV, h, hz]
  · intro hz
    simp [readDeckFromCSV, h, hz]

/-- Witness for C4: a source consisting of one zero-length line is fully
read (the line is skipped), leaving an empty deck, and the parse fails
with the EmptySource message. -/
theorem c4_empty_source_post_loop_witness :
    readDeckFromCSV true "deck.csv" [[]] = .error emptySourceMsg :=
  (c4_empty_source_post_loop "deck.csv" [[]] [] rfl).1 rfl

/-- C7: only zero-length lines are skipped — the empty line leaves the
deck unchanged, any non-empty line either fails or appends a card (it is
never a no-op), and a line of only whitespace is not skipped: it has no
comma, so it fails with the MalformedInput message. -/
theorem c7_only_zero_length_skipped :
    (∀ d : Deck, processLine d [] = .ok d) ∧
    (∀ (d : Deck) (l : List Char), l ≠ [] → processLine d l ≠ .ok d) ∧
    (∀ (d : Deck) (l : List Char), l ≠ [] → (∀ c ∈ l, isSpaceChar c = true) →
      splitFirstComma l = none ∧ processLine d l = .error malformedMsg) := by
  refine ⟨fun d => rfl, ?_, ?_⟩
  · intro d l hne hok
    obtain ⟨c, hc⟩ := processLine_ok_shape hne hok
    have hlen := congrArg List.length hc
    simp at hlen
  · intro d l hne hall
    have hnone := allSpace_splitFirstComma hall
    exact ⟨hnone, by simp [processLine, hne, hnone]⟩

/-- Witness for C7: the one-space line is not skipped — it fails with
the MalformedInput message because it has no comma. -/
theorem c7_only_zero_length_skipped_witness :
    splitFirstComma (" ".toList) = none ∧
    processLine [] (" ".toList) = .error malformedMsg :=
  c7_only_zero_length_skipped.2.2 [] (" ".toList) (by decide) (by decide)

/-- C9: every failure of `readDeckFromCSV` carries one of exactly three
message strings — the open-failure message for the given path, the
MalformedInput message, or the EmptySource message — within the single
error type of the parse result (the source throws `std::runtime_error`
in all three cases), and those three messages are pairwise distinct, so
the failures are distinguishable only by their messages. -/
theorem c9_single_error_type_three_messages (openOk : Bool) (path : String)
    (lines : List (List Char)) (e : String)
    (h : readDeckFromCSV openOk path lines = .error e) :
    (e = openFailMsg path ∨ e = malformedMsg ∨ e = emptySourceMsg) ∧
    openFailMsg path ≠ malformedMsg ∧
    openFailMsg path ≠ emptySourceMsg ∧
    malformedMsg ≠ emptySourceMsg := by
  have hlen : ∀ s : String, (openFailMsg path).length ≠ s.length →
      openFailMsg path ≠ s := fun s hl hc => hl (congrArg String.length hc)
  refine ⟨?_, ?_, ?_, by decide⟩
  · cases openOk with
    | false =>
      simp only [readDeckFromCSV, Bool.not_false, if_pos] at h
      injection h with h2
      exact Or.inl h2.symm
    | true =>
      simp only [readDeckFromCSV, Bool.not_true, Bool.false_eq_true,
        if_false] at h
      split at h
      · rename_i e2 he2
        injection h with h2
        subst h2
        exact Or.inr (Or.inl (processLines_error_msg he2))
      · split at h
        · injection h with h2
          exact Or.inr (Or.inr h2.symm)
        · cases h
  · apply hlen
    simp only [openFailMsg, String.length_append]
    intro hc
    have h1 : ("Failed to open input deck: " : String).length = 27 := rfl
    have h2 : malformedMsg.length = 19 := rfl
    omega
  · apply hlen
    simp only [openFailMsg, String.length_append]
    intro hc
    have h1 : ("Failed to open input deck: " : String).length = 27 := rfl
    have h2 : emptySourceMsg.length = 25 := rfl
    omega

/-- Witness for C9 at a concrete failing parse: the comma-less line
`Spades` makes the parse fail, and the carried message is one of the
three, each pair of which is distinct. -/
theorem c9_single_error_type_three_messages_witness :
    (malformedMsg = openFailMsg "in.csv" ∨ malformedMsg = malformedMsg ∨
      malformedMsg = emptySourceMsg) ∧
    openFailMsg "in.csv" ≠ malformedMsg ∧
    openFailMsg "in.csv" ≠ emptySourceMsg ∧
    malformedMsg ≠ emptySourceMsg :=
  c9_single_error_type_three_messages true "in.csv" ["Spades".toList]
    malformedMsg rfl
